import Mathlib

/-!
Shallow embedding of the homebridge-ha-composite plugin core
(`src/platform.ts` `HACompositePlatform.discoverDevices` / `connectToBridge`
and `src/vacuumAccessory.ts` `VacuumAccessory`), with theorems settling the
specification claims about the signature matcher, the reconciliation pass
and the characteristic proxy.
-/

set_option autoImplicit false

namespace HAComposite

/-! ## Remote accessory graph (data model of one bridge snapshot) -/

/-- `RemoteCharacteristic`: a characteristic entry of the remote graph,
with its type UUID string and instance id (`iid`). -/
structure RChar where
  type : String
  iid : Nat
  deriving DecidableEq, Repr

/-- `RemoteService`: a service entry of the remote graph, with its type UUID
string, an optional `name` field, and an ordered characteristic list. -/
structure RService where
  type : String
  name : Option String
  characteristics : List RChar
  deriving DecidableEq, Repr

/-- `RemoteAccessory`: an accessory entry of the remote graph, with its
accessory id (`aid`) and ordered service list. -/
structure RAccessory where
  aid : Nat
  services : List RService
  deriving DecidableEq, Repr

/-! ## Signature matching (platform.ts, discoverDevices lines 127-164) -/

/-- JavaScript `String.prototype.endsWith`, on the character sequence of the
two strings. -/
def jsEndsWith (s : String) (t : String) : Bool :=
  t.data.isSuffixOf s.data

/-- JavaScript `String.prototype.toUpperCase` (ASCII range, which covers the
hex short codes and UUIDs concerned). -/
def jsToUpper (s : String) : String :=
  ⟨s.data.map Char.toUpper⟩

/-- `endsWithShort` of platform.ts line 128:
`(uuid, code) => uuid.endsWith(code) || uuid.endsWith(code.toUpperCase())`. -/
def endsWithShort (uuid : String) (code : String) : Bool :=
  jsEndsWith uuid code || jsEndsWith uuid (jsToUpper code)

/-- Modelled from the spec's words for comparison with `endsWithShort`:
a suffix test that is case-insensitive on both the stored type UUID and the
required code. -/
def specEndsWithShort (uuid : String) (code : String) : Bool :=
  jsEndsWith (jsToUpper uuid) (jsToUpper code)

/-- An accessory's services cover the Switch short code '49'
(platform.ts line 134). -/
def hasSwitch (a : RAccessory) : Bool :=
  a.services.any (fun svc => endsWithShort svc.type "49")

/-- An accessory's services cover the Battery short code '96'
(platform.ts line 135). -/
def hasBattery (a : RAccessory) : Bool :=
  a.services.any (fun svc => endsWithShort svc.type "96")

/-- Full required-signature coverage: both a Switch and a Battery service. -/
def coversBoth (a : RAccessory) : Bool :=
  hasSwitch a && hasBattery a

/-- The candidate-selection loop of platform.ts lines 131-140: the first
accessory in encounter order having both a Switch and a Battery service. -/
def findCandidate : List RAccessory → Option RAccessory
  | [] => none
  | a :: rest => if coversBoth a then some a else findCandidate rest

/-- The per-service characteristic scan of platform.ts lines 151-155 /
157-162: each matching characteristic overwrites the captured iid. -/
def scanChars (code : String) (init : Option Nat) (chars : List RChar) : Option Nat :=
  chars.foldl (fun acc ch => if endsWithShort ch.type code then some ch.iid else acc) init

/-- One step of the service loop of platform.ts lines 149-164: a '49'
service updates the On capture from its characteristics matching '25';
otherwise a '96' service updates the Battery capture from its
characteristics matching '68'. -/
def extractStep (p : Option Nat × Option Nat) (svc : RService) : Option Nat × Option Nat :=
  if endsWithShort svc.type "49" then (scanChars "25" p.1 svc.characteristics, p.2)
  else if endsWithShort svc.type "96" then (p.1, scanChars "68" p.2 svc.characteristics)
  else p

/-- The full characteristic-extraction loop of platform.ts lines 147-164,
starting from both captures `undefined`. -/
def extractPair (svcs : List RService) : Option Nat × Option Nat :=
  svcs.foldl extractStep (none, none)

/-- The On-capture component of the service loop in isolation: only '49'
services touch the On capture, through their characteristic scan. -/
def extractOnFold (svcs : List RService) (init : Option Nat) : Option Nat :=
  svcs.foldl
    (fun o svc => if endsWithShort svc.type "49" then scanChars "25" o svc.characteristics else o)
    init

/-! ## Local accessory registry and the reconciliation pass
(platform.ts, discoverDevices lines 118-202) -/

/-- The persisted accessory `context` bag, as written by discoverDevices
lines 178-180 / 186-188. Each field is absent (`none`) when never assigned,
mirroring a JavaScript `undefined` property. -/
structure Ctx where
  accessoryAid : Option Nat
  onCharacteristic : Option Nat
  batteryCharacteristic : Option Nat
  deriving DecidableEq, Repr

/-- One cached platform accessory: display name plus persisted context. -/
structure LocalAcc where
  displayName : String
  context : Ctx
  deriving DecidableEq, Repr

/-- The platform's `accessories` Map, in insertion order. -/
abbrev Registry := List (String × LocalAcc)

/-- `Map.get` on the registry (first entry with the key; a JS Map holds at
most one entry per key). -/
def lookupAcc (u : String) : Registry → Option LocalAcc
  | [] => none
  | (k, a) :: rest => if k = u then some a else lookupAcc u rest

/-- In-place context overwrite of an existing accessory, as in
discoverDevices lines 178-180: only the context fields are reassigned. -/
def updateAcc (u : String) (c : Ctx) (r : Registry) : Registry :=
  r.map (fun p => if p.1 = u then (p.1, { p.2 with context := c }) else p)

/-- Mutable platform state consumed by one discoverDevices call. -/
structure PState where
  httpClient : Bool
  bridgeAccessories : List RAccessory
  accessories : Registry
  discoveredCacheUUIDs : List String
  deriving DecidableEq, Repr

/-- Registry side effects emitted during one discoverDevices call:
`registerPlatformAccessories` and `unregisterPlatformAccessories`
invocations, by accessory UUID. -/
structure DiscoverEvents where
  registered : List String
  unregistered : List String
  deriving DecidableEq, Repr

/-- `candidateAccessory.services[0]?.name || 'Robot Vacuum'` of
platform.ts line 174. -/
def displayNameOf (cand : RAccessory) : String :=
  match cand.services with
  | [] => "Robot Vacuum"
  | svc :: _ => match svc.name with
    | some n => n
    | none => "Robot Vacuum"

/-- The context-field assignment of platform.ts lines 178-180 / 186-188:
the matched aid plus the two captured characteristic iids. -/
def mkCtx (cand : RAccessory) : Ctx :=
  ⟨some cand.aid, (extractPair cand.services).1, (extractPair cand.services).2⟩

/-- One discoverDevices cycle (platform.ts lines 118-202), as a state
transition returning the new platform state and the register/unregister
calls made against the host registry. `gen` is the host's deterministic
UUID generation from a string (`api.hap.uuid.generate`). -/
def discoverDevices (gen : String → String) (s : PState) : PState × DiscoverEvents :=
  if s.httpClient = false ∨ s.bridgeAccessories = [] then (s, ⟨[], []⟩)
  else
    match findCandidate s.bridgeAccessories with
    | none => (s, ⟨[], []⟩)
    | some cand =>
      let uuid := gen (toString cand.aid)
      let ctx : Ctx := mkCtx cand
      let step : Registry × List String :=
        match lookupAcc uuid s.accessories with
        | some _ => (updateAcc uuid ctx s.accessories, [])
        | none => (s.accessories ++ [(uuid, ⟨displayNameOf cand, ctx⟩)], [uuid])
      let accs := step.1
      let registeredEvs := step.2
      let dc := s.discoveredCacheUUIDs ++ [uuid]
      ({ s with accessories := accs.filter (fun p => dc.contains p.1),
                discoveredCacheUUIDs := dc },
       ⟨registeredEvs, (accs.filter (fun p => !(dc.contains p.1))).map (fun p => p.1)⟩)

/-! ## Characteristic proxy (vacuumAccessory.ts, VacuumAccessory) -/

/-- A JavaScript value as observed by `typeof value === 'number'`
in getBatteryLevel line 99. -/
inductive JsVal where
  | vnum (n : Int)
  | vbool (b : Bool)
  | vnull
  deriving DecidableEq, Repr

/-- Outcome of a `setCharacteristics` remote call: resolves or throws. -/
inductive RemoteSetResult where
  | ok
  | err
  deriving DecidableEq, Repr

/-- Outcome of a `getCharacteristics` remote call: throws, or resolves with
a list of entries whose `value` slot may be absent. -/
inductive RemoteGetOutcome where
  | throws
  | returns (vals : List (Option JsVal))
  deriving DecidableEq, Repr

/-- In-memory state of one VacuumAccessory instance: the context bag it
reads on every call, plus the cached characteristic values
(lines 17-18: `lastOnState = false`, `lastBatteryLevel = 100`). -/
structure ProxyState where
  ctx : Ctx
  lastOnState : Bool
  lastBatteryLevel : Int
  deriving DecidableEq, Repr

/-- A fresh VacuumAccessory instance bound to a persisted context. -/
def ProxyState.init (c : Ctx) : ProxyState :=
  { ctx := c, lastOnState := false, lastBatteryLevel := 100 }

/-- One `setCharacteristics` call: the JS object literal passed to the
client, as a key/value entry list. -/
structure SetCall where
  entries : List (String × Bool)
  deriving DecidableEq, Repr

/-- One `getCharacteristics` call: the address-string list passed to the
client. -/
structure GetCall where
  addresses : List String
  deriving DecidableEq, Repr

/-- JavaScript truthiness of a possibly-absent numeric field
(`!accessoryAid` is true for both `undefined` and `0`). -/
def truthyNat : Option Nat → Bool
  | none => false
  | some n => n != 0

/-- `VacuumAccessory.setOn` (vacuumAccessory.ts lines 50-71): optimistic
cache update, then a guarded remote set. Returns the new state, the remote
set call made (none when skipped), and whether the error path logged. -/
def setOn (st : ProxyState) (client : Bool) (value : Bool) (r : RemoteSetResult) :
    ProxyState × Option SetCall × Bool :=
  let st1 := { st with lastOnState := value }
  if truthyNat st1.ctx.accessoryAid = false ∨ truthyNat st1.ctx.onCharacteristic = false then
    (st1, none, false)
  else if client = false then
    (st1, none, false)
  else
    let key := toString (st1.ctx.accessoryAid.getD 0) ++ "." ++ toString (st1.ctx.onCharacteristic.getD 0)
    (st1, some ⟨[(key, value)]⟩, r = RemoteSetResult.err)

/-- `VacuumAccessory.getOn` (vacuumAccessory.ts lines 77-79): returns the
cached On state, never touching the remote side. -/
def getOn (st : ProxyState) : Bool :=
  st.lastOnState

/-- `VacuumAccessory.getBatteryLevel` (vacuumAccessory.ts lines 86-106):
guarded remote get with cached fallback. Returns the new state, the value
resolved to the caller, and the remote get call made (none when skipped). -/
def getBatteryLevel (st : ProxyState) (client : Bool) (resp : RemoteGetOutcome) :
    ProxyState × Int × Option GetCall :=
  if truthyNat st.ctx.accessoryAid = false ∨ truthyNat st.ctx.batteryCharacteristic = false then
    (st, st.lastBatteryLevel, none)
  else if client = false then
    (st, st.lastBatteryLevel, none)
  else
    let addr := toString (st.ctx.accessoryAid.getD 0) ++ "." ++ toString (st.ctx.batteryCharacteristic.getD 0)
    let call := some (⟨[addr]⟩ : GetCall)
    match resp with
    | RemoteGetOutcome.throws => (st, st.lastBatteryLevel, call)
    | RemoteGetOutcome.returns vals =>
      match vals.head? with
      | some (some (JsVal.vnum n)) => ({ st with lastBatteryLevel := n }, n, call)
      | _ => (st, st.lastBatteryLevel, call)

/-- A remote interaction issued by the proxy. -/
inductive RemoteCall where
  | rset (c : SetCall)
  | rget (g : GetCall)
  deriving DecidableEq, Repr

/-- One event in a proxy instance's lifetime: a HomeKit set of On, a
HomeKit get of On, or a HomeKit get of BatteryLevel, each with the client
availability and remote outcome observed at that moment. -/
inductive ProxyOp where
  | opSetOn (client : Bool) (b : Bool) (r : RemoteSetResult)
  | opGetOn
  | opGetBattery (client : Bool) (resp : RemoteGetOutcome)
  deriving DecidableEq, Repr

/-- Apply one proxy event, collecting any remote call it issues. -/
def stepProxy (acc : ProxyState × List RemoteCall) (op : ProxyOp) : ProxyState × List RemoteCall :=
  match op with
  | ProxyOp.opSetOn client b r =>
    ((setOn acc.1 client b r).1,
     acc.2 ++ ((setOn acc.1 client b r).2.1.map RemoteCall.rset).toList)
  | ProxyOp.opGetOn => acc
  | ProxyOp.opGetBattery client resp =>
    ((getBatteryLevel acc.1 client resp).1,
     acc.2 ++ ((getBatteryLevel acc.1 client resp).2.2.map RemoteCall.rget).toList)

/-- Run a proxy instance through a sequence of lifetime events. -/
def runProxy (st : ProxyState) (ops : List ProxyOp) : ProxyState × List RemoteCall :=
  ops.foldl stepProxy (st, [])

/-! ## Theorems -/

theorem setOn_state_eq (st : ProxyState) (client b : Bool) (r : RemoteSetResult) :
    (setOn st client b r).1 = { st with lastOnState := b } := by
  by_cases h1 : truthyNat st.ctx.accessoryAid = false ∨
      truthyNat st.ctx.onCharacteristic = false
  · simp [setOn, h1]
  · by_cases h2 : client = false <;> simp [setOn, h1, h2]

theorem setOn_skip_of_unresolved (st : ProxyState) (client b : Bool) (r : RemoteSetResult)
    (h : truthyNat st.ctx.accessoryAid = false ∨ truthyNat st.ctx.onCharacteristic = false) :
    (setOn st client b r).2.1 = none := by
  simp [setOn, h]

theorem getBatteryLevel_ctx_eq (st : ProxyState) (client : Bool) (resp : RemoteGetOutcome) :
    (getBatteryLevel st client resp).1.ctx = st.ctx := by
  by_cases h1 : truthyNat st.ctx.accessoryAid = false ∨
      truthyNat st.ctx.batteryCharacteristic = false
  · simp [getBatteryLevel, h1]
  · by_cases h2 : client = false
    · simp [getBatteryLevel, h1, h2]
    · cases resp with
      | throws => simp [getBatteryLevel, h1, h2]
      | returns vals =>
        cases hh : vals.head? with
        | none => simp [getBatteryLevel, h1, h2, hh]
        | some v =>
          cases v with
          | none => simp [getBatteryLevel, h1, h2, hh]
          | some jv => cases jv <;> simp [getBatteryLevel, h1, h2, hh]

theorem getBatteryLevel_skip_of_unresolved (st : ProxyState) (client : Bool)
    (resp : RemoteGetOutcome)
    (h : truthyNat st.ctx.accessoryAid = false ∨
      truthyNat st.ctx.batteryCharacteristic = false) :
    (getBatteryLevel st client resp).2.2 = none := by
  simp [getBatteryLevel, h]

theorem lookupAcc_eq_none_iff (u : String) (r : Registry) :
    lookupAcc u r = none ↔ ∀ p ∈ r, p.1 ≠ u := by
  induction r with
  | nil => simp [lookupAcc]
  | cons p t ih =>
    obtain ⟨k, a⟩ := p
    by_cases hk : k = u
    · subst hk
      simp [lookupAcc]
    · simp only [lookupAcc, if_neg hk, ih, List.mem_cons]
      constructor
      · intro h q hq
        rcases hq with rfl | hq
        · exact hk
        · exact h q hq
      · intro h q hq
        exact h q (Or.inr hq)

theorem lookupAcc_mem (u : String) (r : Registry) (a : LocalAcc)
    (h : lookupAcc u r = some a) : (u, a) ∈ r := by
  induction r with
  | nil => simp [lookupAcc] at h
  | cons p t ih =>
    obtain ⟨k, b⟩ := p
    by_cases hk : k = u
    · subst hk
      rw [lookupAcc, if_pos rfl] at h
      obtain rfl : b = a := by injection h
      exact List.mem_cons_self _ _
    · rw [lookupAcc, if_neg hk] at h
      exact List.mem_cons_of_mem _ (ih h)

theorem lookupAcc_isSome_of_mem_key (u : String) (r : Registry) (p : String × LocalAcc)
    (hp : p ∈ r) (hpu : p.1 = u) : ∃ a, lookupAcc u r = some a := by
  cases hl : lookupAcc u r with
  | none => exact absurd hpu ((lookupAcc_eq_none_iff u r).mp hl p hp)
  | some a => exact ⟨a, rfl⟩

theorem updateAcc_context (u : String) (c : Ctx) (r : Registry) :
    ∀ q ∈ updateAcc u c r, q.1 = u → q.2.context = c := by
  intro q hq hqu
  unfold updateAcc at hq
  obtain ⟨p, hp, hpq⟩ := List.mem_map.mp hq
  by_cases hk : p.1 = u
  · rw [if_pos hk] at hpq
    rw [← hpq]
  · rw [if_neg hk] at hpq
    rw [← hpq] at hqu
    exact absurd hqu hk

theorem updateAcc_mem_of_mem (u : String) (c : Ctx) (r : Registry) (p : String × LocalAcc)
    (hp : p ∈ r) (hpu : p.1 = u) :
    (u, { p.2 with context := c }) ∈ updateAcc u c r := by
  unfold updateAcc
  refine List.mem_map.mpr ⟨p, hp, ?_⟩
  rw [if_pos hpu, hpu]

theorem updateAcc_eq_self (u : String) (c : Ctx) (r : Registry)
    (h : ∀ p ∈ r, p.1 = u → p.2.context = c) : updateAcc u c r = r := by
  induction r with
  | nil => rfl
  | cons p t ih =>
    unfold updateAcc
    rw [List.map_cons]
    have htail : updateAcc u c t = t :=
      ih (fun q hq hqu => h q (List.mem_cons_of_mem p hq) hqu)
    unfold updateAcc at htail
    rw [htail]
    by_cases hk : p.1 = u
    · have hc : p.2.context = c := h p (List.mem_cons_self p t) hk
      obtain ⟨k, a⟩ := p
      obtain ⟨dn, ctx2⟩ := a
      simp only at hk hc
      subst hk
      subst hc
      rw [if_pos rfl]
    · rw [if_neg hk]

theorem updateAcc_keys (u : String) (c : Ctx) (r : Registry) :
    (updateAcc u c r).map Prod.fst = r.map Prod.fst := by
  induction r with
  | nil => rfl
  | cons p t ih =>
    unfold updateAcc
    unfold updateAcc at ih
    simp only [List.map_cons]
    rw [ih]
    congr 1
    by_cases hk : p.1 = u
    · rw [if_pos hk]
    · rw [if_neg hk]

theorem count_map_fst_filter_of (u : String) (P : String × LocalAcc → Bool) (l : Registry)
    (h : ∀ p : String × LocalAcc, p.1 = u → P p = true) :
    ((l.filter P).map Prod.fst).count u = (l.map Prod.fst).count u := by
  induction l with
  | nil => rfl
  | cons p t ih =>
    by_cases hP : P p = true
    · rw [List.filter_cons_of_pos hP, List.map_cons, List.map_cons,
        List.count_cons, List.count_cons, ih]
    · have hpu : p.1 ≠ u := fun hc => hP (h p hc)
      rw [List.filter_cons_of_neg (by simp [hP]), List.map_cons, List.count_cons, ih]
      have : ¬(u = p.1) := fun hc => hpu hc.symm
      simp [this, hpu]

theorem contains_append_right (l : List String) (x u : String)
    (h : l.contains x = true) : (l ++ [u]).contains x = true := by
  have hx : x ∈ l := by simpa using h
  simp [hx]

theorem contains_last (l : List String) (u : String) : (l ++ [u]).contains u = true := by
  simp

theorem discoverDevices_early (gen : String → String) (s : PState)
    (h : s.httpClient = false ∨ s.bridgeAccessories = []) :
    discoverDevices gen s = (s, ⟨[], []⟩) := by
  unfold discoverDevices
  rw [if_pos h]

theorem discoverDevices_nomatch (gen : String → String) (s : PState)
    (hclient : s.httpClient = true) (hacc : s.bridgeAccessories ≠ [])
    (hcand : findCandidate s.bridgeAccessories = none) :
    discoverDevices gen s = (s, ⟨[], []⟩) := by
  unfold discoverDevices
  rw [if_neg (by simp [hclient, hacc]), hcand]

theorem discoverDevices_existing (gen : String → String) (s : PState) (cand : RAccessory)
    (a : LocalAcc)
    (hclient : s.httpClient = true) (hacc : s.bridgeAccessories ≠ [])
    (hcand : findCandidate s.bridgeAccessories = some cand)
    (hlk : lookupAcc (gen (toString cand.aid)) s.accessories = some a) :
    discoverDevices gen s =
      ({ s with
          accessories := (updateAcc (gen (toString cand.aid)) (mkCtx cand) s.accessories).filter
            (fun p => (s.discoveredCacheUUIDs ++ [gen (toString cand.aid)]).contains p.1),
          discoveredCacheUUIDs := s.discoveredCacheUUIDs ++ [gen (toString cand.aid)] },
       ⟨[],
        ((updateAcc (gen (toString cand.aid)) (mkCtx cand) s.accessories).filter
            (fun p => !((s.discoveredCacheUUIDs ++ [gen (toString cand.aid)]).contains p.1))).map
          (fun p => p.1)⟩) := by
  unfold discoverDevices
  rw [if_neg (by simp [hclient, hacc]), hcand]
  dsimp only
  rw [hlk]

theorem discoverDevices_new (gen : String → String) (s : PState) (cand : RAccessory)
    (hclient : s.httpClient = true) (hacc : s.bridgeAccessories ≠ [])
    (hcand : findCandidate s.bridgeAccessories = some cand)
    (hlk : lookupAcc (gen (toString cand.aid)) s.accessories = none) :
    discoverDevices gen s =
      ({ s with
          accessories := (s.accessories ++
              [(gen (toString cand.aid),
                (⟨displayNameOf cand, mkCtx cand⟩ : LocalAcc))]).filter
            (fun p => (s.discoveredCacheUUIDs ++ [gen (toString cand.aid)]).contains p.1),
          discoveredCacheUUIDs := s.discoveredCacheUUIDs ++ [gen (toString cand.aid)] },
       ⟨[gen (toString cand.aid)],
        ((s.accessories ++
              [(gen (toString cand.aid),
                (⟨displayNameOf cand, mkCtx cand⟩ : LocalAcc))]).filter
            (fun p => !((s.discoveredCacheUUIDs ++ [gen (toString cand.aid)]).contains p.1))).map
          (fun p => p.1)⟩) := by
  unfold discoverDevices
  rw [if_neg (by simp [hclient, hacc]), hcand]
  dsimp only
  rw [hlk]

/-- C1 counterexample: with no client (hence an empty candidate set) and a
previously-registered local accessory in the registry, the cycle returns
early: the accessory stays in the registry and nothing is unregistered,
contrary to the claim that it is retired. -/
theorem c1_counterexample :
    discoverDevices (fun str => str)
        ⟨false, [], [("u1", ⟨"Old", ⟨some 3, some 1, some 2⟩⟩)], []⟩ =
      (⟨false, [], [("u1", ⟨"Old", ⟨some 3, some 1, some 2⟩⟩)], []⟩, ⟨[], []⟩) :=
  discoverDevices_early (fun str => str) _ (Or.inl rfl)

/-- C1 (amended): retirement happens only in a cycle that finds a matching
candidate; there, every accessory registered under an identifier not in the
accumulated discovered-UUID list (which ends with this cycle's derived
identifier) is removed from the registry and unregistered exactly once.
When there is no client, no remote accessory or no match, the cycle
returns early and retires nothing. -/
theorem c1_retirement (gen : String → String) (s : PState) (cand : RAccessory)
    (u : String) (a : LocalAcc)
    (hclient : s.httpClient = true) (hacc : s.bridgeAccessories ≠ [])
    (hcand : findCandidate s.bridgeAccessories = some cand)
    (hmem : (u, a) ∈ s.accessories)
    (hnodup : (s.accessories.map Prod.fst).Nodup)
    (hu : u ∉ s.discoveredCacheUUIDs ++ [gen (toString cand.aid)]) :
    u ∉ (discoverDevices gen s).1.accessories.map Prod.fst ∧
    ((discoverDevices gen s).2.unregistered.count u = 1) := by
  have hucontains : (s.discoveredCacheUUIDs ++ [gen (toString cand.aid)]).contains u = false := by
    simpa using hu
  have hkeep : ∀ p : String × LocalAcc, p.1 = u →
      (!((s.discoveredCacheUUIDs ++ [gen (toString cand.aid)]).contains p.1)) = true := by
    intro p hp
    rw [hp, hucontains]
    rfl
  have humem : u ∈ s.accessories.map Prod.fst :=
    List.mem_map.mpr ⟨(u, a), hmem, rfl⟩
  have hcount : (s.accessories.map Prod.fst).count u = 1 :=
    List.count_eq_one_of_mem hnodup humem
  have hne_uuid : u ≠ gen (toString cand.aid) := by
    intro h
    exact hu (List.mem_append.mpr (Or.inr (by simp [h])))
  cases hlk : lookupAcc (gen (toString cand.aid)) s.accessories with
  | some a0 =>
    rw [discoverDevices_existing gen s cand a0 hclient hacc hcand hlk]
    constructor
    · intro hmem2
      obtain ⟨p, hp, hpu⟩ := List.mem_map.mp hmem2
      have := List.of_mem_filter hp
      rw [hpu, hucontains] at this
      exact absurd this (by simp)
    · have h1 := count_map_fst_filter_of u
        (fun p : String × LocalAcc =>
          !((s.discoveredCacheUUIDs ++ [gen (toString cand.aid)]).contains p.1))
        (updateAcc (gen (toString cand.aid)) (mkCtx cand) s.accessories) hkeep
      have h2 := updateAcc_keys (gen (toString cand.aid)) (mkCtx cand) s.accessories
      show ((List.filter _ (updateAcc (gen (toString cand.aid)) (mkCtx cand)
        s.accessories)).map Prod.fst).count u = 1
      rw [h1, h2]
      exact hcount
  | none =>
    rw [discoverDevices_new gen s cand hclient hacc hcand hlk]
    constructor
    · intro hmem2
      obtain ⟨p, hp, hpu⟩ := List.mem_map.mp hmem2
      have := List.of_mem_filter hp
      rw [hpu, hucontains] at this
      exact absurd this (by simp)
    · have h1 := count_map_fst_filter_of u
        (fun p : String × LocalAcc =>
          !((s.discoveredCacheUUIDs ++ [gen (toString cand.aid)]).contains p.1))
        (s.accessories ++
          [(gen (toString cand.aid),
            (⟨displayNameOf cand, mkCtx cand⟩ : LocalAcc))]) hkeep
      show ((List.filter _ (s.accessories ++
        [(gen (toString cand.aid),
          (⟨displayNameOf cand, mkCtx cand⟩ : LocalAcc))])).map
          Prod.fst).count u = 1
      rw [h1, List.map_append, List.count_append]
      have : ([(gen (toString cand.aid),
          (⟨displayNameOf cand, mkCtx cand⟩ : LocalAcc))].map Prod.fst).count u = 0 := by
        simp [hne_uuid]
      rw [this, Nat.add_zero]
      exact hcount

/-- C1 witness: with a live client, one matching accessory of aid 5 and a
stale registry entry under key "old", the cycle removes "old" and
unregisters it exactly once. -/
theorem c1_retirement_witness :
    "old" ∉ (discoverDevices (fun str => str ++ "-u")
        ⟨true,
         [⟨5, [⟨"0049", some "Vac", [⟨"0025", 8⟩]⟩, ⟨"0096", none, [⟨"0068", 9⟩]⟩]⟩],
         [("old", ⟨"Old", ⟨some 3, some 1, some 2⟩⟩)], []⟩).1.accessories.map Prod.fst ∧
    ((discoverDevices (fun str => str ++ "-u")
        ⟨true,
         [⟨5, [⟨"0049", some "Vac", [⟨"0025", 8⟩]⟩, ⟨"0096", none, [⟨"0068", 9⟩]⟩]⟩],
         [("old", ⟨"Old", ⟨some 3, some 1, some 2⟩⟩)], []⟩).2.unregistered.count "old" = 1) :=
  c1_retirement (fun str => str ++ "-u")
    ⟨true,
     [⟨5, [⟨"0049", some "Vac", [⟨"0025", 8⟩]⟩, ⟨"0096", none, [⟨"0068", 9⟩]⟩]⟩],
     [("old", ⟨"Old", ⟨some 3, some 1, some 2⟩⟩)], []⟩
    ⟨5, [⟨"0049", some "Vac", [⟨"0025", 8⟩]⟩, ⟨"0096", none, [⟨"0068", 9⟩]⟩]⟩
    "old" ⟨"Old", ⟨some 3, some 1, some 2⟩⟩
    rfl (by decide) (by decide) (by decide) (by decide) (by decide)

theorem discover_pass_on_post (gen : String → String) (sPost : PState) (cand : RAccessory)
    (hclient : sPost.httpClient = true) (hacc : sPost.bridgeAccessories ≠ [])
    (hcand : findCandidate sPost.bridgeAccessories = some cand)
    (hctx : ∀ p ∈ sPost.accessories, p.1 = gen (toString cand.aid) → p.2.context = mkCtx cand)
    (hex : ∃ p ∈ sPost.accessories, p.1 = gen (toString cand.aid))
    (hdc : ∀ p ∈ sPost.accessories, sPost.discoveredCacheUUIDs.contains p.1 = true) :
    (discoverDevices gen sPost).1.accessories = sPost.accessories ∧
    (discoverDevices gen sPost).2.registered = [] ∧
    ∃ a, lookupAcc (gen (toString cand.aid)) sPost.accessories = some a ∧
      a.context = mkCtx cand := by
  obtain ⟨p0, hp0, hp0u⟩ := hex
  obtain ⟨a1, hlk1⟩ := lookupAcc_isSome_of_mem_key (gen (toString cand.aid))
    sPost.accessories p0 hp0 hp0u
  have ha1mem := lookupAcc_mem (gen (toString cand.aid)) sPost.accessories a1 hlk1
  have ha1ctx : a1.context = mkCtx cand := hctx (gen (toString cand.aid), a1) ha1mem rfl
  rw [discoverDevices_existing gen sPost cand a1 hclient hacc hcand hlk1]
  refine ⟨?_, rfl, a1, hlk1, ha1ctx⟩
  show (updateAcc (gen (toString cand.aid)) (mkCtx cand) sPost.accessories).filter _ =
    sPost.accessories
  rw [updateAcc_eq_self (gen (toString cand.aid)) (mkCtx cand) sPost.accessories hctx]
  exact List.filter_eq_self.mpr
    (fun p hp => contains_append_right sPost.discoveredCacheUUIDs p.1
      (gen (toString cand.aid)) (hdc p hp))

/-- C3: running a discovery cycle twice against an unchanged remote graph
registers nothing on the second pass and leaves the registry identical to
the first pass's result; when a candidate is matched, that registry holds
the accessory under the derived identifier with the freshly-extracted
context values. -/
theorem c3_reconciliation_idempotent (gen : String → String) (s : PState) :
    (discoverDevices gen (discoverDevices gen s).1).1.accessories =
      (discoverDevices gen s).1.accessories ∧
    (discoverDevices gen (discoverDevices gen s).1).2.registered = [] ∧
    (∀ cand, s.httpClient = true → s.bridgeAccessories ≠ [] →
      findCandidate s.bridgeAccessories = some cand →
      ∃ a, lookupAcc (gen (toString cand.aid)) (discoverDevices gen s).1.accessories =
          some a ∧ a.context = mkCtx cand) := by
  by_cases hear : s.httpClient = false ∨ s.bridgeAccessories = []
  · have h1 := discoverDevices_early gen s hear
    rw [h1]
    exact ⟨congrArg (fun q => q.1.accessories) h1, congrArg (fun q => q.2.registered) h1,
      fun cand hcl hacc2 _ => absurd hear (by simp [hcl, hacc2])⟩
  · push_neg at hear
    obtain ⟨hcl', hacc⟩ := hear
    have hclient : s.httpClient = true := by
      cases h : s.httpClient
      · exact absurd h hcl'
      · rfl
    cases hcand2 : findCandidate s.bridgeAccessories with
    | none =>
      have h1 := discoverDevices_nomatch gen s hclient hacc hcand2
      rw [h1]
      refine ⟨congrArg (fun q => q.1.accessories) h1,
        congrArg (fun q => q.2.registered) h1, ?_⟩
      intro cand _ _ hc
      exact absurd hc (by simp)
    | some cand =>
      have hpost : ((discoverDevices gen s).1.httpClient = true) ∧
          ((discoverDevices gen s).1.bridgeAccessories = s.bridgeAccessories) ∧
          ((discoverDevices gen s).1.discoveredCacheUUIDs =
            s.discoveredCacheUUIDs ++ [gen (toString cand.aid)]) ∧
          (∀ p ∈ (discoverDevices gen s).1.accessories,
            p.1 = gen (toString cand.aid) → p.2.context = mkCtx cand) ∧
          (∃ p ∈ (discoverDevices gen s).1.accessories, p.1 = gen (toString cand.aid)) ∧
          (∀ p ∈ (discoverDevices gen s).1.accessories,
            (discoverDevices gen s).1.discoveredCacheUUIDs.contains p.1 = true) := by
        cases hlk : lookupAcc (gen (toString cand.aid)) s.accessories with
        | some a0 =>
          have h1 := discoverDevices_existing gen s cand a0 hclient hacc hcand2 hlk
          rw [h1]
          dsimp only
          refine ⟨hclient, rfl, rfl, ?_, ?_, ?_⟩
          · intro p hp hpu
            exact updateAcc_context (gen (toString cand.aid)) (mkCtx cand) s.accessories p
              (List.mem_of_mem_filter hp) hpu
          · have hmem0 := lookupAcc_mem (gen (toString cand.aid)) s.accessories a0 hlk
            have hmem1 := updateAcc_mem_of_mem (gen (toString cand.aid)) (mkCtx cand)
              s.accessories ((gen (toString cand.aid)), a0) hmem0 rfl
            refine ⟨_, List.mem_filter.mpr ⟨hmem1, ?_⟩, rfl⟩
            exact contains_last s.discoveredCacheUUIDs (gen (toString cand.aid))
          · intro p hp
            have hm := List.of_mem_filter hp
            simpa using hm
        | none =>
          have h1 := discoverDevices_new gen s cand hclient hacc hcand2 hlk
          rw [h1]
          dsimp only
          refine ⟨hclient, rfl, rfl, ?_, ?_, ?_⟩
          · intro p hp hpu
            rcases List.mem_append.mp (List.mem_of_mem_filter hp) with hm | hm
            · exact absurd hpu ((lookupAcc_eq_none_iff (gen (toString cand.aid))
                s.accessories).mp hlk p hm)
            · obtain rfl : p = ((gen (toString cand.aid)),
                  (⟨displayNameOf cand, mkCtx cand⟩ : LocalAcc)) := by
                simpa using hm
              rfl
          · refine ⟨((gen (toString cand.aid)),
                (⟨displayNameOf cand, mkCtx cand⟩ : LocalAcc)),
              List.mem_filter.mpr
                ⟨List.mem_append.mpr (Or.inr (List.mem_singleton.mpr rfl)), ?_⟩, rfl⟩
            exact contains_last s.discoveredCacheUUIDs (gen (toString cand.aid))
          · intro p hp
            have hm := List.of_mem_filter hp
            simpa using hm
      obtain ⟨hc1, hc2, hc3, hctx1, hex1, hdc1⟩ := hpost
      have hcand3 : findCandidate (discoverDevices gen s).1.bridgeAccessories = some cand := by
        rw [hc2]
        exact hcand2
      have hacc3 : (discoverDevices gen s).1.bridgeAccessories ≠ [] := by
        rw [hc2]
        exact hacc
      have hsp := discover_pass_on_post gen (discoverDevices gen s).1 cand hc1 hacc3 hcand3
        hctx1 hex1 hdc1
      refine ⟨hsp.1, hsp.2.1, ?_⟩
      intro cand' _ _ hc'
      obtain rfl : cand = cand' := by injection hc'
      exact hsp.2.2

/-- C3 witness: a concrete two-pass run on a one-accessory graph: the
second pass registers nothing, the registry is unchanged, and the vacuum
sits under its derived identifier with the extracted addresses. -/
theorem c3_reconciliation_idempotent_witness :
    (discoverDevices (fun str => str ++ "-u")
        (discoverDevices (fun str => str ++ "-u")
          ⟨true,
           [⟨5, [⟨"0049", some "Vac", [⟨"0025", 8⟩]⟩, ⟨"0096", none, [⟨"0068", 9⟩]⟩]⟩],
           [], []⟩).1).1.accessories =
      (discoverDevices (fun str => str ++ "-u")
        ⟨true,
         [⟨5, [⟨"0049", some "Vac", [⟨"0025", 8⟩]⟩, ⟨"0096", none, [⟨"0068", 9⟩]⟩]⟩],
         [], []⟩).1.accessories ∧
    (discoverDevices (fun str => str ++ "-u")
        (discoverDevices (fun str => str ++ "-u")
          ⟨true,
           [⟨5, [⟨"0049", some "Vac", [⟨"0025", 8⟩]⟩, ⟨"0096", none, [⟨"0068", 9⟩]⟩]⟩],
           [], []⟩).1).2.registered = [] ∧
    ∃ a, lookupAcc "5-u"
        (discoverDevices (fun str => str ++ "-u")
          ⟨true,
           [⟨5, [⟨"0049", some "Vac", [⟨"0025", 8⟩]⟩, ⟨"0096", none, [⟨"0068", 9⟩]⟩]⟩],
           [], []⟩).1.accessories = some a ∧
      a.context = mkCtx ⟨5, [⟨"0049", some "Vac", [⟨"0025", 8⟩]⟩,
        ⟨"0096", none, [⟨"0068", 9⟩]⟩]⟩ :=
  ⟨(c3_reconciliation_idempotent (fun str => str ++ "-u")
      ⟨true,
       [⟨5, [⟨"0049", some "Vac", [⟨"0025", 8⟩]⟩, ⟨"0096", none, [⟨"0068", 9⟩]⟩]⟩],
       [], []⟩).1,
   (c3_reconciliation_idempotent (fun str => str ++ "-u")
      ⟨true,
       [⟨5, [⟨"0049", some "Vac", [⟨"0025", 8⟩]⟩, ⟨"0096", none, [⟨"0068", 9⟩]⟩]⟩],
       [], []⟩).2.1,
   (c3_reconciliation_idempotent (fun str => str ++ "-u")
      ⟨true,
       [⟨5, [⟨"0049", some "Vac", [⟨"0025", 8⟩]⟩, ⟨"0096", none, [⟨"0068", 9⟩]⟩]⟩],
       [], []⟩).2.2
     ⟨5, [⟨"0049", some "Vac", [⟨"0025", 8⟩]⟩, ⟨"0096", none, [⟨"0068", 9⟩]⟩]⟩
     rfl (by decide) (by decide)⟩

/-- C2 counterexample: the stored type UUID side is not case-insensitive.
A stored type ending in lowercase `ab` does not match the code `AB`,
although a both-sides case-insensitive test accepts it. -/
theorem c2_counterexample :
    endsWithShort "ab" "AB" = false ∧ specEndsWithShort "ab" "AB" = true := by
  decide

/-- C2 (amended): the suffix test accepts the code exactly as written and
also its uppercased form, so it is case-insensitive in the required code
whenever the stored type UUID ends in the uppercased code; it is not
case-insensitive on the stored UUID side. -/
theorem c2_code_side_case_insensitive (uuid c₁ c₂ : String)
    (hc : jsToUpper c₁ = jsToUpper c₂)
    (h : jsEndsWith uuid (jsToUpper c₁) = true) :
    endsWithShort uuid c₁ = true ∧ endsWithShort uuid c₂ = true := by
  constructor
  · unfold endsWithShort
    rw [h]
    simp
  · unfold endsWithShort
    rw [← hc, h]
    simp

/-- C2 witness: the mixed-case codes `ab` and `aB` both match a stored type
ending in `AB`. -/
theorem c2_code_side_case_insensitive_witness :
    endsWithShort "xAB" "ab" = true ∧ endsWithShort "xAB" "aB" = true :=
  c2_code_side_case_insensitive "xAB" "ab" "aB" (by decide) (by decide)

/-- C5: the matcher selects the first accessory in encounter order whose
services cover both the Switch code '49' and the Battery code '96'; a
selected accessory always covers both, every accessory before the selected
one lacks full coverage, and a no-match report means no accessory in the
graph has full coverage. -/
theorem c5_first_full_coverage_wins (G : List RAccessory) :
    (∀ a, findCandidate G = some a →
      hasSwitch a = true ∧ hasBattery a = true ∧
      ∃ l₁ l₂, G = l₁ ++ a :: l₂ ∧ ∀ b ∈ l₁, coversBoth b = false) ∧
    (findCandidate G = none → ∀ a ∈ G, coversBoth a = false) := by
  induction G with
  | nil =>
    constructor
    · intro a ha
      simp [findCandidate] at ha
    · intro _ a ha
      simp at ha
  | cons x rest ih =>
    constructor
    · intro a ha
      by_cases hx : coversBoth x = true
      · rw [findCandidate, if_pos hx] at ha
        obtain rfl : x = a := by injection ha
        have hcov := hx
        unfold coversBoth at hcov
        simp only [Bool.and_eq_true] at hcov
        exact ⟨hcov.1, hcov.2, [], rest, rfl, by intro b hb; simp at hb⟩
      · have hx' : coversBoth x = false := by
          cases hcb : coversBoth x
          · rfl
          · exact absurd hcb hx
        rw [findCandidate, if_neg (by simp [hx'])] at ha
        obtain ⟨h1, h2, l₁, l₂, hG, hl⟩ := ih.1 a ha
        refine ⟨h1, h2, x :: l₁, l₂, by rw [hG]; rfl, ?_⟩
        intro b hb
        rcases List.mem_cons.mp hb with hb | hb
        · rw [hb]; exact hx'
        · exact hl b hb
    · intro hnone a ha
      by_cases hx : coversBoth x = true
      · rw [findCandidate, if_pos hx] at hnone
        exact absurd hnone (by simp)
      · have hx' : coversBoth x = false := by
          cases hcb : coversBoth x
          · rfl
          · exact absurd hcb hx
        rw [findCandidate, if_neg (by simp [hx'])] at hnone
        rcases List.mem_cons.mp ha with rfl | ha
        · exact hx'
        · exact ih.2 hnone a ha

/-- C5 witness: on a two-accessory graph whose first accessory lacks the
Battery service, the matcher selects the second accessory, which covers
both required codes and follows the non-covering first. -/
theorem c5_first_full_coverage_wins_witness :
    hasSwitch ⟨7, [⟨"0049", none, []⟩, ⟨"0096", none, []⟩]⟩ = true ∧
    hasBattery ⟨7, [⟨"0049", none, []⟩, ⟨"0096", none, []⟩]⟩ = true ∧
    ∃ l₁ l₂,
      [⟨3, [⟨"0049", none, []⟩]⟩, ⟨7, [⟨"0049", none, []⟩, ⟨"0096", none, []⟩]⟩] =
        l₁ ++ ⟨7, [⟨"0049", none, []⟩, ⟨"0096", none, []⟩]⟩ :: l₂ ∧
      ∀ b ∈ l₁, coversBoth b = false :=
  (c5_first_full_coverage_wins
      [⟨3, [⟨"0049", none, []⟩]⟩, ⟨7, [⟨"0049", none, []⟩, ⟨"0096", none, []⟩]⟩]).1
    ⟨7, [⟨"0049", none, []⟩, ⟨"0096", none, []⟩]⟩ (by decide)

/-- C7: write(b) sets the optimistic cache to b no matter whether the
remote set is skipped, succeeds or throws, and read_on immediately after
returns b; read_on reads only the cached state. -/
theorem c7_read_after_write (st : ProxyState) (client : Bool) (b : Bool)
    (r : RemoteSetResult) :
    (setOn st client b r).1.lastOnState = b ∧
    getOn (setOn st client b r).1 = b := by
  rw [setOn_state_eq]
  exact ⟨rfl, rfl⟩

theorem truthyNat_eq_true_iff (o : Option Nat) :
    truthyNat o = true ↔ ∃ n, o = some n ∧ n ≠ 0 := by
  cases o with
  | none => simp [truthyNat]
  | some n => simp [truthyNat]

/-- C6: every remote batch-set issued by setOn and every remote batch-get
issued by getBatteryLevel addresses the characteristic through the single
string token `<aid>.<iid>` built from the resolved accessoryAid and the
characteristic iid, as the sole key of the call. -/
theorem c6_wire_address_format :
    (∀ (st : ProxyState) (client b : Bool) (r : RemoteSetResult) (c : SetCall),
      (setOn st client b r).2.1 = some c →
      ∃ aid iid, st.ctx.accessoryAid = some aid ∧ st.ctx.onCharacteristic = some iid ∧
        c.entries = [(toString aid ++ "." ++ toString iid, b)]) ∧
    (∀ (st : ProxyState) (client : Bool) (resp : RemoteGetOutcome) (g : GetCall),
      (getBatteryLevel st client resp).2.2 = some g →
      ∃ aid iid, st.ctx.accessoryAid = some aid ∧ st.ctx.batteryCharacteristic = some iid ∧
        g.addresses = [toString aid ++ "." ++ toString iid]) := by
  constructor
  · intro st client b r c hc
    by_cases h1 : truthyNat st.ctx.accessoryAid = false ∨
        truthyNat st.ctx.onCharacteristic = false
    · simp [setOn, h1] at hc
    · by_cases h2 : client = false
      · simp [setOn, h1, h2] at hc
      · push_neg at h1
        obtain ⟨haid, hiid⟩ := h1
        obtain ⟨aid, haid', hne⟩ := (truthyNat_eq_true_iff _).mp (by
          cases htr : truthyNat st.ctx.accessoryAid
          · exact absurd htr haid
          · rfl)
        obtain ⟨iid, hiid', hne'⟩ := (truthyNat_eq_true_iff _).mp (by
          cases htr : truthyNat st.ctx.onCharacteristic
          · exact absurd htr hiid
          · rfl)
        refine ⟨aid, iid, haid', hiid', ?_⟩
        simp only [setOn, haid', hiid'] at hc
        rw [if_neg (by simp [truthyNat, hne, hne']), if_neg (by simp [h2])] at hc
        obtain rfl : (⟨[(toString aid ++ "." ++ toString iid, b)]⟩ : SetCall) = c := by
          injection hc
        rfl
  · intro st client resp g hg
    by_cases h1 : truthyNat st.ctx.accessoryAid = false ∨
        truthyNat st.ctx.batteryCharacteristic = false
    · simp [getBatteryLevel, h1] at hg
    · by_cases h2 : client = false
      · simp [getBatteryLevel, h1, h2] at hg
      · push_neg at h1
        obtain ⟨haid, hiid⟩ := h1
        obtain ⟨aid, haid', hne⟩ := (truthyNat_eq_true_iff _).mp (by
          cases htr : truthyNat st.ctx.accessoryAid
          · exact absurd htr haid
          · rfl)
        obtain ⟨iid, hiid', hne'⟩ := (truthyNat_eq_true_iff _).mp (by
          cases htr : truthyNat st.ctx.batteryCharacteristic
          · exact absurd htr hiid
          · rfl)
        refine ⟨aid, iid, haid', hiid', ?_⟩
        simp only [getBatteryLevel, haid', hiid'] at hg
        rw [if_neg (by simp [truthyNat, hne, hne']), if_neg (by simp [h2])] at hg
        cases resp with
        | throws =>
          obtain rfl : (⟨[toString aid ++ "." ++ toString iid]⟩ : GetCall) = g := by
            injection hg
          rfl
        | returns vals =>
          dsimp only at hg
          cases hh : vals.head? with
          | none =>
            rw [hh] at hg
            obtain rfl : (⟨[toString aid ++ "." ++ toString iid]⟩ : GetCall) = g := by
              injection hg
            rfl
          | some v =>
            rw [hh] at hg
            cases v with
            | none =>
              obtain rfl : (⟨[toString aid ++ "." ++ toString iid]⟩ : GetCall) = g := by
                injection hg
              rfl
            | some jv =>
              cases jv with
              | vnum n =>
                obtain rfl : (⟨[toString aid ++ "." ++ toString iid]⟩ : GetCall) = g := by
                  injection hg
                rfl
              | vbool bb =>
                obtain rfl : (⟨[toString aid ++ "." ++ toString iid]⟩ : GetCall) = g := by
                  injection hg
                rfl
              | vnull =>
                obtain rfl : (⟨[toString aid ++ "." ++ toString iid]⟩ : GetCall) = g := by
                  injection hg
                rfl

/-- C6 witness: with accessoryAid 5 and On iid 8, write(true) issues a
remote set whose sole key is "5.8" with value true. -/
theorem c6_wire_address_format_witness :
    ∃ aid iid,
      (ProxyState.init ⟨some 5, some 8, some 9⟩).ctx.accessoryAid = some aid ∧
      (ProxyState.init ⟨some 5, some 8, some 9⟩).ctx.onCharacteristic = some iid ∧
      (SetCall.mk [("5.8", true)]).entries = [(toString aid ++ "." ++ toString iid, true)] :=
  c6_wire_address_format.1 (ProxyState.init ⟨some 5, some 8, some 9⟩) true true
    RemoteSetResult.ok ⟨[("5.8", true)]⟩ rfl

/-- C8: getBatteryLevel always resolves with a value equal to its updated
cache; with unresolved addresses or no client it returns the cache
untouched; a successful remote get whose first value is numeric overwrites
the cache and is returned; any other outcome (throw, absent or non-numeric
value) leaves the cache untouched and returns it. -/
theorem c8_battery_read_total (st : ProxyState) (client : Bool) (resp : RemoteGetOutcome) :
    (getBatteryLevel st client resp).2.1 = (getBatteryLevel st client resp).1.lastBatteryLevel ∧
    ((truthyNat st.ctx.accessoryAid = false ∨ truthyNat st.ctx.batteryCharacteristic = false ∨
        client = false) →
      getBatteryLevel st client resp = (st, st.lastBatteryLevel, none)) ∧
    (∀ n rest, resp = RemoteGetOutcome.returns (some (JsVal.vnum n) :: rest) →
      truthyNat st.ctx.accessoryAid = true → truthyNat st.ctx.batteryCharacteristic = true →
      client = true →
      (getBatteryLevel st client resp).1.lastBatteryLevel = n ∧
      (getBatteryLevel st client resp).2.1 = n) ∧
    ((∀ vals n, resp = RemoteGetOutcome.returns vals →
        vals.head? ≠ some (some (JsVal.vnum n))) →
      (getBatteryLevel st client resp).1 = st ∧
      (getBatteryLevel st client resp).2.1 = st.lastBatteryLevel) := by
  by_cases h1 : truthyNat st.ctx.accessoryAid = false ∨
      truthyNat st.ctx.batteryCharacteristic = false
  · refine ⟨by simp [getBatteryLevel, h1], fun _ => by simp [getBatteryLevel, h1], ?_, ?_⟩
    · intro n rest _ htr1 htr2 _
      rcases h1 with h1 | h1
      · rw [htr1] at h1; exact absurd h1 (by simp)
      · rw [htr2] at h1; exact absurd h1 (by simp)
    · intro _
      constructor
      · simp [getBatteryLevel, h1]
      · simp [getBatteryLevel, h1]
  · by_cases h2 : client = false
    · refine ⟨by simp [getBatteryLevel, h1, h2], fun _ => by simp [getBatteryLevel, h1, h2],
        ?_, ?_⟩
      · intro n rest _ _ _ hcl
        rw [hcl] at h2
        exact absurd h2 (by decide)
      · intro _
        constructor
        · simp [getBatteryLevel, h1, h2]
        · simp [getBatteryLevel, h1, h2]
    · cases resp with
      | throws =>
        refine ⟨by simp [getBatteryLevel, h1, h2], ?_, ?_, ?_⟩
        · intro hdisj
          rcases hdisj with h | h | h
          · exact absurd h (by tauto)
          · exact absurd h (by tauto)
          · exact absurd h h2
        · intro n rest hresp _ _ _
          exact absurd hresp (by simp)
        · intro _
          constructor
          · simp [getBatteryLevel, h1, h2]
          · simp [getBatteryLevel, h1, h2]
      | returns vals =>
        refine ⟨?_, ?_, ?_, ?_⟩
        · cases hh : vals.head? with
          | none => simp [getBatteryLevel, h1, h2, hh]
          | some v =>
            cases v with
            | none => simp [getBatteryLevel, h1, h2, hh]
            | some jv => cases jv <;> simp [getBatteryLevel, h1, h2, hh]
        · intro hdisj
          rcases hdisj with h | h | h
          · exact absurd h (by tauto)
          · exact absurd h (by tauto)
          · exact absurd h h2
        · intro n rest hresp _ _ _
          obtain rfl : vals = some (JsVal.vnum n) :: rest := by injection hresp
          constructor
          · simp [getBatteryLevel, h1, h2]
          · simp [getBatteryLevel, h1, h2]
        · intro hfail
          have hh := hfail vals
          cases hhead : vals.head? with
          | none =>
            constructor
            · simp [getBatteryLevel, h1, h2, hhead]
            · simp [getBatteryLevel, h1, h2, hhead]
          | some v =>
            cases v with
            | none =>
              constructor
              · simp [getBatteryLevel, h1, h2, hhead]
              · simp [getBatteryLevel, h1, h2, hhead]
            | some jv =>
              cases jv with
              | vnum n => exact absurd hhead (hh n rfl)
              | vbool bb =>
                constructor
                · simp [getBatteryLevel, h1, h2, hhead]
                · simp [getBatteryLevel, h1, h2, hhead]
              | vnull =>
                constructor
                · simp [getBatteryLevel, h1, h2, hhead]
                · simp [getBatteryLevel, h1, h2, hhead]

/-- C8 witness: a fresh proxy with unresolved battery address returns the
constructor default 100; applied at the degraded-case implication. -/
theorem c8_battery_read_total_witness :
    getBatteryLevel (ProxyState.init ⟨none, some 8, none⟩) true
        (RemoteGetOutcome.returns [some (JsVal.vnum 42)]) =
      (ProxyState.init ⟨none, some 8, none⟩, 100, none) :=
  (c8_battery_read_total (ProxyState.init ⟨none, some 8, none⟩) true
      (RemoteGetOutcome.returns [some (JsVal.vnum 42)])).2.1 (Or.inl rfl)

/-- C10: a context field that is present but 0 is treated exactly like an
absent one, because resolution is tested by JavaScript truthiness: setOn
still updates the optimistic cache but skips the remote set, and
getBatteryLevel returns the cache without issuing a remote get. -/
theorem c10_zero_is_unresolved (st : ProxyState) (client : Bool) (b : Bool)
    (r : RemoteSetResult) (resp : RemoteGetOutcome) :
    ((st.ctx.accessoryAid = some 0 ∨ st.ctx.onCharacteristic = some 0) →
      setOn st client b r = ({ st with lastOnState := b }, none, false)) ∧
    ((st.ctx.accessoryAid = some 0 ∨ st.ctx.batteryCharacteristic = some 0) →
      getBatteryLevel st client resp = (st, st.lastBatteryLevel, none)) := by
  constructor
  · intro h
    have hcond : truthyNat st.ctx.accessoryAid = false ∨
        truthyNat st.ctx.onCharacteristic = false := by
      rcases h with h | h
      · left; rw [h]; rfl
      · right; rw [h]; rfl
    unfold setOn
    rw [if_pos hcond]
  · intro h
    have hcond : truthyNat st.ctx.accessoryAid = false ∨
        truthyNat st.ctx.batteryCharacteristic = false := by
      rcases h with h | h
      · left; rw [h]; rfl
      · right; rw [h]; rfl
    unfold getBatteryLevel
    rw [if_pos hcond]

/-- C10 witness: with accessoryAid stored as 0 and present iids, a write
updates only the cache and a battery read returns the cached default. -/
theorem c10_zero_is_unresolved_witness :
    setOn (ProxyState.init ⟨some 0, some 8, some 9⟩) true true RemoteSetResult.ok =
      ({ ProxyState.init ⟨some 0, some 8, some 9⟩ with lastOnState := true }, none, false) ∧
    getBatteryLevel (ProxyState.init ⟨some 0, some 8, some 9⟩) true
        (RemoteGetOutcome.returns [some (JsVal.vnum 42)]) =
      (ProxyState.init ⟨some 0, some 8, some 9⟩, 100, none) :=
  ⟨(c10_zero_is_unresolved (ProxyState.init ⟨some 0, some 8, some 9⟩) true true
      RemoteSetResult.ok (RemoteGetOutcome.returns [some (JsVal.vnum 42)])).1
      (Or.inl rfl),
   (c10_zero_is_unresolved (ProxyState.init ⟨some 0, some 8, some 9⟩) true true
      RemoteSetResult.ok (RemoteGetOutcome.returns [some (JsVal.vnum 42)])).2
      (Or.inl rfl)⟩

theorem runProxy_aux (ops : List ProxyOp) :
    ∀ (st : ProxyState) (acc : List RemoteCall),
      (ops.foldl stepProxy (st, acc)).1.ctx = st.ctx ∧
      ((truthyNat st.ctx.accessoryAid = false ∨ truthyNat st.ctx.onCharacteristic = false) →
        ∀ c, RemoteCall.rset c ∈ (ops.foldl stepProxy (st, acc)).2 → RemoteCall.rset c ∈ acc) ∧
      ((truthyNat st.ctx.accessoryAid = false ∨
          truthyNat st.ctx.batteryCharacteristic = false) →
        ∀ g, RemoteCall.rget g ∈ (ops.foldl stepProxy (st, acc)).2 → RemoteCall.rget g ∈ acc) := by
  induction ops with
  | nil =>
    intro st acc
    exact ⟨rfl, fun _ c h => h, fun _ g h => h⟩
  | cons op rest ih =>
    intro st acc
    rw [List.foldl_cons]
    cases op with
    | opSetOn client b r =>
      have hctx : (setOn st client b r).1.ctx = st.ctx := by rw [setOn_state_eq]
      have hstep : stepProxy (st, acc) (ProxyOp.opSetOn client b r) =
          ((setOn st client b r).1,
           acc ++ ((setOn st client b r).2.1.map RemoteCall.rset).toList) := rfl
      rw [hstep]
      obtain ⟨ih1, ih2, ih3⟩ := ih (setOn st client b r).1
        (acc ++ ((setOn st client b r).2.1.map RemoteCall.rset).toList)
      refine ⟨ih1.trans hctx, ?_, ?_⟩
      · intro hun c hmem
        have hm2 := ih2 (by rw [hctx]; exact hun) c hmem
        rw [setOn_skip_of_unresolved st client b r hun] at hm2
        simpa using hm2
      · intro hun g hmem
        have hm2 := ih3 (by rw [hctx]; exact hun) g hmem
        rcases List.mem_append.mp hm2 with hm | hm
        · exact hm
        · cases hcall : (setOn st client b r).2.1 with
          | none => rw [hcall] at hm; simp at hm
          | some c =>
            rw [hcall] at hm
            simp at hm
    | opGetOn =>
      exact ih st acc
    | opGetBattery client resp =>
      have hctx := getBatteryLevel_ctx_eq st client resp
      have hstep : stepProxy (st, acc) (ProxyOp.opGetBattery client resp) =
          ((getBatteryLevel st client resp).1,
           acc ++ ((getBatteryLevel st client resp).2.2.map RemoteCall.rget).toList) := rfl
      rw [hstep]
      obtain ⟨ih1, ih2, ih3⟩ := ih (getBatteryLevel st client resp).1
        (acc ++ ((getBatteryLevel st client resp).2.2.map RemoteCall.rget).toList)
      refine ⟨ih1.trans hctx, ?_, ?_⟩
      · intro hun c hmem
        have hm2 := ih2 (by rw [hctx]; exact hun) c hmem
        rcases List.mem_append.mp hm2 with hm | hm
        · exact hm
        · cases hcall : (getBatteryLevel st client resp).2.2 with
          | none => rw [hcall] at hm; simp at hm
          | some g =>
            rw [hcall] at hm
            simp at hm
      · intro hun g hmem
        have hm2 := ih3 (by rw [hctx]; exact hun) g hmem
        rw [getBatteryLevel_skip_of_unresolved st client resp hun] at hm2
        simpa using hm2

/-- C4: the context addresses a proxy instance reads are never modified by
any of its own read/write events; hence an instance whose accessoryAid or
relevant characteristic iid is unresolved at construction stays degraded
for its whole lifetime, issuing no remote set (respectively no remote get)
under any sequence of events, until a fresh instance replaces it. -/
theorem c4_unresolved_is_permanent (st : ProxyState) (ops : List ProxyOp) :
    (runProxy st ops).1.ctx = st.ctx ∧
    ((truthyNat st.ctx.accessoryAid = false ∨ truthyNat st.ctx.onCharacteristic = false) →
      ∀ c, RemoteCall.rset c ∉ (runProxy st ops).2) ∧
    ((truthyNat st.ctx.accessoryAid = false ∨
        truthyNat st.ctx.batteryCharacteristic = false) →
      ∀ g, RemoteCall.rget g ∉ (runProxy st ops).2) := by
  obtain ⟨h1, h2, h3⟩ := runProxy_aux ops st []
  refine ⟨h1, ?_, ?_⟩
  · intro hun c hmem
    have := h2 hun c hmem
    simp at this
  · intro hun g hmem
    have := h3 hun g hmem
    simp at this

/-- C4 witness: a proxy constructed with a missing accessoryAid keeps its
context through a write, a read and a battery read, and issues no remote
call at all. -/
theorem c4_unresolved_is_permanent_witness :
    (runProxy (ProxyState.init ⟨none, some 8, some 9⟩)
        [ProxyOp.opSetOn true true RemoteSetResult.ok, ProxyOp.opGetOn,
         ProxyOp.opGetBattery true (RemoteGetOutcome.returns [some (JsVal.vnum 42)])]).1.ctx =
      (⟨none, some 8, some 9⟩ : Ctx) ∧
    (∀ c, RemoteCall.rset c ∉
      (runProxy (ProxyState.init ⟨none, some 8, some 9⟩)
        [ProxyOp.opSetOn true true RemoteSetResult.ok, ProxyOp.opGetOn,
         ProxyOp.opGetBattery true (RemoteGetOutcome.returns [some (JsVal.vnum 42)])]).2) ∧
    (∀ g, RemoteCall.rget g ∉
      (runProxy (ProxyState.init ⟨none, some 8, some 9⟩)
        [ProxyOp.opSetOn true true RemoteSetResult.ok, ProxyOp.opGetOn,
         ProxyOp.opGetBattery true (RemoteGetOutcome.returns [some (JsVal.vnum 42)])]).2) :=
  ⟨(c4_unresolved_is_permanent (ProxyState.init ⟨none, some 8, some 9⟩)
      [ProxyOp.opSetOn true true RemoteSetResult.ok, ProxyOp.opGetOn,
       ProxyOp.opGetBattery true (RemoteGetOutcome.returns [some (JsVal.vnum 42)])]).1,
   (c4_unresolved_is_permanent (ProxyState.init ⟨none, some 8, some 9⟩)
      [ProxyOp.opSetOn true true RemoteSetResult.ok, ProxyOp.opGetOn,
       ProxyOp.opGetBattery true (RemoteGetOutcome.returns [some (JsVal.vnum 42)])]).2.1
     (Or.inl rfl),
   (c4_unresolved_is_permanent (ProxyState.init ⟨none, some 8, some 9⟩)
      [ProxyOp.opSetOn true true RemoteSetResult.ok, ProxyOp.opGetOn,
       ProxyOp.opGetBattery true (RemoteGetOutcome.returns [some (JsVal.vnum 42)])]).2.2
     (Or.inl rfl)⟩

theorem scanChars_append_singleton (code : String) (init : Option Nat) (l : List RChar)
    (c : RChar) :
    scanChars code init (l ++ [c]) =
      if endsWithShort c.type code then some c.iid else scanChars code init l := by
  simp [scanChars, List.foldl_append]

theorem scanChars_eq_getLast (code : String) (init : Option Nat) (chars : List RChar) :
    scanChars code init chars =
      match (chars.filter (fun ch => endsWithShort ch.type code)).getLast? with
      | some ch => some ch.iid
      | none => init := by
  induction chars using List.reverseRecOn with
  | nil => rfl
  | append_singleton l c ih =>
    rw [scanChars_append_singleton, List.filter_append]
    by_cases h : endsWithShort c.type code
    · rw [if_pos h]
      have hf : List.filter (fun ch => endsWithShort ch.type code) [c] = [c] := by
        simp [h]
      rw [hf, List.getLast?_concat]
    · rw [if_neg h]
      have hf : List.filter (fun ch => endsWithShort ch.type code) [c] = [] := by
        simp [h]
      rw [hf, List.append_nil, ih]

theorem extractPair_fst_eq (svcs : List RService) :
    ∀ p : Option Nat × Option Nat,
      (svcs.foldl extractStep p).1 = extractOnFold svcs p.1 := by
  induction svcs with
  | nil => intro p; rfl
  | cons s t ih =>
    intro p
    unfold extractOnFold
    rw [List.foldl_cons, List.foldl_cons, ih]
    show extractOnFold t (extractStep p s).1 = _
    unfold extractOnFold
    congr 1
    unfold extractStep
    by_cases h1 : endsWithShort s.type "49"
    · rw [if_pos h1, if_pos h1]
    · rw [if_neg h1, if_neg h1]
      by_cases h2 : endsWithShort s.type "96"
      · rw [if_pos h2]
      · rw [if_neg h2]

theorem extractOnFold_no_switch (svcs : List RService) (init : Option Nat)
    (h : ∀ s ∈ svcs, endsWithShort s.type "49" = false) :
    extractOnFold svcs init = init := by
  induction svcs with
  | nil => rfl
  | cons s t ih =>
    unfold extractOnFold
    rw [List.foldl_cons, if_neg (by rw [h s (List.mem_cons_self s t)]; simp)]
    exact ih (fun x hx => h x (List.mem_cons_of_mem s hx))

/-- C9: the per-service characteristic scan has overwrite semantics: when a
service's characteristic list holds two or more characteristics matching a
short code, the captured iid for that code is the iid of the characteristic
encountered last in iteration order; composed through the full service
loop, a unique Switch-matching service's last '25' match becomes the
captured On iid of the selected accessory. -/
theorem c9_duplicate_code_last_wins :
    (∀ (code : String) (init : Option Nat) (chars : List RChar) (ch : RChar),
      2 ≤ (chars.filter (fun c => endsWithShort c.type code)).length →
      (chars.filter (fun c => endsWithShort c.type code)).getLast? = some ch →
      scanChars code init chars = some ch.iid) ∧
    (∀ (l₁ l₂ : List RService) (svc : RService) (ch : RChar),
      endsWithShort svc.type "49" = true →
      (∀ t ∈ l₁ ++ l₂, endsWithShort t.type "49" = false) →
      2 ≤ (svc.characteristics.filter (fun c => endsWithShort c.type "25")).length →
      (svc.characteristics.filter (fun c => endsWithShort c.type "25")).getLast? =
        some ch →
      (extractPair (l₁ ++ svc :: l₂)).1 = some ch.iid) := by
  constructor
  · intro code init chars ch _hdup hlast
    rw [scanChars_eq_getLast, hlast]
  · intro l₁ l₂ svc ch hsvc honly _hdup hlast
    unfold extractPair
    rw [extractPair_fst_eq]
    show extractOnFold (l₁ ++ svc :: l₂) none = some ch.iid
    unfold extractOnFold
    rw [List.foldl_append, List.foldl_cons]
    have hl₁ : extractOnFold l₁ none = none :=
      extractOnFold_no_switch l₁ none
        (fun x hx => honly x (List.mem_append.mpr (Or.inl hx)))
    unfold extractOnFold at hl₁
    rw [hl₁, if_pos hsvc]
    have hscan : scanChars "25" none svc.characteristics = some ch.iid := by
      rw [scanChars_eq_getLast, hlast]
    rw [hscan]
    have hl₂ : extractOnFold l₂ (some ch.iid) = some ch.iid :=
      extractOnFold_no_switch l₂ (some ch.iid)
        (fun x hx => honly x (List.mem_append.mpr (Or.inr hx)))
    unfold extractOnFold at hl₂
    exact hl₂

/-- C9 witness: a battery service scan with two '68' characteristics
captures the last one, and a Switch service holding two '25'
characteristics with iids 8 and 11 makes the matcher capture 11. -/
theorem c9_duplicate_code_last_wins_witness :
    scanChars "68" none [⟨"0068", 4⟩, ⟨"0068", 7⟩] = some 7 ∧
    (extractPair [⟨"0049", none, [⟨"0025", 8⟩, ⟨"0025", 11⟩]⟩]).1 = some 11 :=
  ⟨c9_duplicate_code_last_wins.1 "68" none [⟨"0068", 4⟩, ⟨"0068", 7⟩] ⟨"0068", 7⟩
     (by decide) (by decide),
   c9_duplicate_code_last_wins.2 [] [] ⟨"0049", none, [⟨"0025", 8⟩, ⟨"0025", 11⟩]⟩
     ⟨"0025", 11⟩ (by decide) (by intro t ht; simp at ht) (by decide) (by decide)⟩

end HAComposite
